import Mathlib

/-!
Verification of the PptGen presentation generator.

This development shallowly embeds the core logic of the repository:
the template extractors (theme colors/fonts, slide-master and slide-layout
geometry), the LLM outline normalizer, the layout selector, and the
deck/filename emission of `src/services/presentationGenerator.ts`, together
with the backend `templateAnalyzer.js` entry point.

Strings are modelled as `List Char`; JavaScript numbers used for geometry are
modelled as exact rationals (`ℚ`); JavaScript regular-expression scans are
modelled by explicit left-to-right scanners matching the engine's behaviour on
the inputs the theorems quantify over.  External effects (zip archive opening,
network calls) are modelled by passing their results in as data.  Characters
that the task's string conventions reserve are written with `\x60` (backtick),
`\x7b` and `\x7d` (braces) escapes throughout.
-/

/-! ## Character utilities -/

/-- The left-brace character, written via an escape. -/
def lbraceC : Char := '\x7b'

/-- The right-brace character, written via an escape. -/
def rbraceC : Char := '\x7d'

/-- JavaScript whitespace (ASCII part): space, tab, newline, vertical tab,
form feed, carriage return.  Used for `\s`, `.trim()` and JSON whitespace. -/
def isJsWs (c : Char) : Bool :=
  c == ' ' || c == '\t' || c == '\n' || c == '\x0b' || c == '\x0c' || c == '\r'

/-- ASCII decimal digit, as in the regex class `\d`. -/
def isDigitC (c : Char) : Bool := 48 ≤ c.toNat && c.toNat ≤ 57

/-- The regex class `[A-F0-9]` under the `/i` flag: hexadecimal digit of
either case. -/
def isHexChar (c : Char) : Bool :=
  (48 ≤ c.toNat && c.toNat ≤ 57) || (97 ≤ c.toNat && c.toNat ≤ 102) ||
    (65 ≤ c.toNat && c.toNat ≤ 70)

/-- The regex class `\w` = `[A-Za-z0-9_]`. -/
def isWordChar (c : Char) : Bool :=
  (48 ≤ c.toNat && c.toNat ≤ 57) || (65 ≤ c.toNat && c.toNat ≤ 90) ||
    (97 ≤ c.toNat && c.toNat ≤ 122) || c == '_'

/-- ASCII lower-casing at the code-point level, as performed by a
case-insensitive (`/i`) regex match on ASCII subjects. -/
def lowerN (c : Char) : Nat := if 65 ≤ c.toNat ∧ c.toNat ≤ 90 then c.toNat + 32 else c.toNat

/-- Case-insensitive character comparison (ASCII), the character test used by
`/i` regexes and by `String.prototype.toLowerCase().includes(...)` on the
ASCII layout names and tags the theorems quantify over. -/
def charEqCI (a b : Char) : Bool := lowerN a == lowerN b

/-- `String.prototype.toLowerCase` restricted to the characters a captured
`[A-F0-9]` (with `/i`) token can contain: upper-case hex letters are lowered,
all other characters (digits, already-lower letters) are unchanged. -/
def lowerHexChar (c : Char) : Char :=
  if c = 'A' then 'a' else if c = 'B' then 'b' else if c = 'C' then 'c'
  else if c = 'D' then 'd' else if c = 'E' then 'e' else if c = 'F' then 'f' else c

/-! ## Generic left-to-right scanners

These model the behaviour of `String.prototype.match` with a literal-text
pattern: try each start position from the left, succeed at the first one
where the whole literal matches. -/

/-- Does `pat` occur literally at the head of `l` (case-sensitive)? -/
def startsWithL : List Char → List Char → Bool
  | [], _ => true
  | _ :: _, [] => false
  | p :: ps, c :: cs => p == c && startsWithL ps cs

/-- Does `pat` occur at the head of `l`, compared case-insensitively? -/
def startsCI : List Char → List Char → Bool
  | [], _ => true
  | _ :: _, [] => false
  | p :: ps, c :: cs => charEqCI p c && startsCI ps cs

/-- Scan for the first occurrence of the literal `pat`; return the suffix
immediately after it. -/
def scanAfter (pat : List Char) : List Char → Option (List Char)
  | [] => none
  | c :: cs =>
    if startsWithL pat (c :: cs) then some (cs.drop (pat.length - 1))
    else scanAfter pat cs

/-- Case-insensitive version of `scanAfter`, for `/i` regexes. -/
def scanAfterCI (pat : List Char) : List Char → Option (List Char)
  | [] => none
  | c :: cs =>
    if startsCI pat (c :: cs) then some (cs.drop (pat.length - 1))
    else scanAfterCI pat cs

/-- Split at the first occurrence of the character `ch`:
returns (text before, text after). -/
def splitAtChar (ch : Char) : List Char → Option (List Char × List Char)
  | [] => none
  | c :: cs =>
    if c = ch then some ([], cs)
    else (splitAtChar ch cs).map (fun p => (c :: p.1, p.2))

/-- The text strictly before the first occurrence of the literal `pat`
(`none` when `pat` does not occur): the lazy capture `([\s\S]*?)pat`. -/
def takeBeforeLit (pat : List Char) : List Char → Option (List Char)
  | [] => none
  | c :: cs =>
    if startsWithL pat (c :: cs) then some []
    else (takeBeforeLit pat cs).map (c :: ·)

/-- Split at the first occurrence of the literal `pat`:
returns (text before, text after the literal). -/
def splitAtLit (pat : List Char) : List Char → Option (List Char × List Char)
  | [] => none
  | c :: cs =>
    if startsWithL pat (c :: cs) then some ([], cs.drop (pat.length - 1))
    else (splitAtLit pat cs).map (fun p => (c :: p.1, p.2))

/-- The suffix after the last occurrence of the literal `pat` (the
continuation point of a greedy quantifier before `pat`). -/
def afterLastLit (pat : List Char) : List Char → Option (List Char)
  | [] => none
  | c :: cs =>
    match afterLastLit pat cs with
    | some r => some r
    | none => if startsWithL pat (c :: cs) then some (cs.drop (pat.length - 1)) else none

/-- Value of a non-empty digit run, as computed by `parseInt` on it
(exact; the model ignores `parseInt`'s float rounding on astronomically
long digit runs, which affects no inequality proved here). -/
def digitsToNat (ds : List Char) : Nat := ds.foldl (fun a c => a * 10 + (c.toNat - 48)) 0

/-- Read a `(\d+)` capture at the head of `l`: the maximal (greedy) digit run,
failing when it is empty. -/
def grabDigits (l : List Char) : Option (Nat × List Char) :=
  let ds := l.takeWhile isDigitC
  if ds.isEmpty then none else some (digitsToNat ds, l.dropWhile isDigitC)

/-! ## Markdown fence stripping and JSON-span matching

`generatePresentationStructure` cleans the raw model text with
`responseText.replace(/\x60\x60\x60json\n?|\n?\x60\x60\x60/g, '').trim()` and then takes
`cleanedResponse.match(/\{[\s\S]*\}/)`. -/

/-- One pass of the global replace
`.replace(/\x60\x60\x60json\n?|\n?\x60\x60\x60/g, '')`: at each position, the engine
prefers the first alternative with a greedy optional newline, then the second
alternative with a greedy leading optional newline; on a match it continues
after the match, otherwise it keeps the character and moves on. -/
def stripFences : List Char → List Char
  | [] => []
  | '\x60' :: '\x60' :: '\x60' :: 'j' :: 's' :: 'o' :: 'n' :: '\n' :: rest => stripFences rest
  | '\x60' :: '\x60' :: '\x60' :: 'j' :: 's' :: 'o' :: 'n' :: rest => stripFences rest
  | '\n' :: '\x60' :: '\x60' :: '\x60' :: rest => stripFences rest
  | '\x60' :: '\x60' :: '\x60' :: rest => stripFences rest
  | c :: cs => c :: stripFences cs

/-- `String.prototype.trim` (ASCII whitespace model). -/
def trimJs (l : List Char) : List Char :=
  ((l.dropWhile isJsWs).reverse.dropWhile isJsWs).reverse

/-- The prefix of `l` up to and including its last right brace, when one
exists: the backtracking of the greedy `[\s\S]*` before the final brace. -/
def takeToLastRbrace : List Char → Option (List Char)
  | [] => none
  | c :: rest =>
    match takeToLastRbrace rest with
    | some t => some (c :: t)
    | none => if c = rbraceC then some [c] else none

/-- `cleanedResponse.match(/\{[\s\S]*\}/)`: the engine starts the match at the
first left brace that has a right brace after it, and the greedy `[\s\S]*`
extends the match to the last right brace of the whole text. -/
def jsonMatch : List Char → Option (List Char)
  | [] => none
  | c :: rest =>
    if c = lbraceC then
      match takeToLastRbrace rest with
      | some t => some (lbraceC :: t)
      | none => jsonMatch rest
    else jsonMatch rest

/-- Specification-side predicate: the text contains a left brace with some
right brace after it (a `\{[\s\S]*\}` span exists).  Stated independently of
`jsonMatch` and related to it by `jsonMatch_none_iff`. -/
def hasJsonSpan (l : List Char) : Bool :=
  match l.dropWhile (fun c => c != lbraceC) with
  | [] => false
  | _ :: rest => rest.contains rbraceC

/-! ## JSON values and `JSON.parse`

`JSON.parse` is a platform builtin; it is modelled here by a standard
recursive-descent parser for the JSON grammar restricted to integer numeric
literals and to the single-character string escapes (no `\u` escapes); all
theorems that depend on parsing either quantify over inputs the model parses
or use concrete inputs inside the modelled subset.  Duplicate object keys
keep the last value, as in JavaScript. -/

inductive Json where
  | null
  | bool (b : Bool)
  | num (n : Int)
  | str (s : List Char)
  | arr (xs : List Json)
  | obj (fields : List (List Char × Json))

/-- Insert-or-replace a field, preserving the position of an existing key:
JavaScript property assignment / duplicate-key handling. -/
def upsertF : List (List Char × Json) → List Char → Json → List (List Char × Json)
  | [], k, v => [(k, v)]
  | (k1, v1) :: rest, k, v =>
    if k1 = k then (k, v) :: rest else (k1, v1) :: upsertF rest k v

/-- Fold duplicate keys, last value winning. -/
def dedupeF (fs : List (List Char × Json)) : List (List Char × Json) :=
  fs.foldl (fun acc kv => upsertF acc kv.1 kv.2) []

/-- Drop leading JSON whitespace. -/
def skipWs (l : List Char) : List Char := l.dropWhile isJsWs

/-- Single-character JSON string escapes. -/
def parseEscape (c : Char) : Option Char :=
  if c = '"' then some '"' else if c = '\\' then some '\\'
  else if c = '/' then some '/' else if c = 'n' then some '\n'
  else if c = 't' then some '\t' else if c = 'r' then some '\r'
  else if c = 'b' then some '\x08' else if c = 'f' then some '\x0c' else none

/-- Body of a JSON string after the opening quote; returns the decoded
content and the text after the closing quote. -/
def parseStringBody : Nat → List Char → Option (List Char × List Char)
  | 0, _ => none
  | _ + 1, [] => none
  | f + 1, c :: cs =>
    if c = '"' then some ([], cs)
    else if c = '\\' then
      match cs with
      | [] => none
      | e :: cs1 =>
        match parseEscape e with
        | none => none
        | some ch =>
          match parseStringBody f cs1 with
          | none => none
          | some (s, r) => some (ch :: s, r)
    else
      match parseStringBody f cs with
      | none => none
      | some (s, r) => some (c :: s, r)

/-- An integer JSON number literal. -/
def parseNum (l : List Char) : Option (Json × List Char) :=
  let (neg, l1) := match l with
    | '-' :: r => (true, r)
    | _ => (false, l)
  let ds := l1.takeWhile isDigitC
  let rest := l1.dropWhile isDigitC
  if ds.isEmpty then none
  else
    match rest with
    | '.' :: _ => none
    | 'e' :: _ => none
    | 'E' :: _ => none
    | _ =>
      let n : Int := Int.ofNat (digitsToNat ds)
      some (Json.num (if neg then -n else n), rest)

/-- Parser modes: a value, the inside of an array (first item or after a
comma), the inside of an object. -/
inductive PMode where
  | val | arrRest | arrMore | objRest | objMore

/-- Fueled recursive-descent JSON parser.  `arrRest`/`objRest` parse the
content right after `[` / the opening brace; `arrMore`/`objMore` parse
`, item`* up to the closer.  Collection results are wrapped in
`Json.arr`/`Json.obj`. -/
def parseF : Nat → PMode → List Char → Option (Json × List Char)
  | 0, _, _ => none
  | f + 1, .val, l =>
    match skipWs l with
    | [] => none
    | c :: cs =>
      if c = '"' then
        match parseStringBody (f + 1) cs with
        | some (s, r) => some (Json.str s, r)
        | none => none
      else if c = 'n' then
        match cs with
        | 'u' :: 'l' :: 'l' :: r => some (Json.null, r)
        | _ => none
      else if c = 't' then
        match cs with
        | 'r' :: 'u' :: 'e' :: r => some (Json.bool true, r)
        | _ => none
      else if c = 'f' then
        match cs with
        | 'a' :: 'l' :: 's' :: 'e' :: r => some (Json.bool false, r)
        | _ => none
      else if c = '[' then parseF f .arrRest cs
      else if c = lbraceC then parseF f .objRest cs
      else if c = '-' || isDigitC c then parseNum (c :: cs)
      else none
  | f + 1, .arrRest, l =>
    match skipWs l with
    | ']' :: r => some (Json.arr [], r)
    | l1 =>
      match parseF f .val l1 with
      | none => none
      | some (v, r) =>
        match parseF f .arrMore r with
        | some (Json.arr xs, r2) => some (Json.arr (v :: xs), r2)
        | _ => none
  | f + 1, .arrMore, l =>
    match skipWs l with
    | ',' :: r =>
      match parseF f .val r with
      | none => none
      | some (v, r2) =>
        match parseF f .arrMore r2 with
        | some (Json.arr xs, r3) => some (Json.arr (v :: xs), r3)
        | _ => none
    | ']' :: r => some (Json.arr [], r)
    | _ => none
  | f + 1, .objRest, l =>
    match skipWs l with
    | c :: r =>
      if c = rbraceC then some (Json.obj [], r)
      else if c = '"' then
        match parseStringBody (f + 1) r with
        | none => none
        | some (k, r2) =>
          match skipWs r2 with
          | ':' :: r3 =>
            match parseF f .val r3 with
            | none => none
            | some (v, r4) =>
              match parseF f .objMore r4 with
              | some (Json.obj fs, r5) => some (Json.obj (dedupeF ((k, v) :: fs)), r5)
              | _ => none
          | _ => none
      else none
    | [] => none
  | f + 1, .objMore, l =>
    match skipWs l with
    | ',' :: r =>
      match skipWs r with
      | '"' :: r1 =>
        match parseStringBody (f + 1) r1 with
        | none => none
        | some (k, r2) =>
          match skipWs r2 with
          | ':' :: r3 =>
            match parseF f .val r3 with
            | none => none
            | some (v, r4) =>
              match parseF f .objMore r4 with
              | some (Json.obj fs, r5) => some (Json.obj ((k, v) :: fs), r5)
              | _ => none
          | _ => none
      | _ => none
    | c :: r => if c = rbraceC then some (Json.obj [], r) else none
    | [] => none

/-- `JSON.parse`: one value, with only whitespace allowed around it. -/
def jsonParse (l : List Char) : Option Json :=
  match parseF (2 * l.length + 8) .val l with
  | some (v, r) => if skipWs r = [] then some v else none
  | none => none

/-! ## The outline normalizer

`generatePresentationStructure` after the provider call: clean, locate the
JSON span, `JSON.parse` it, validate `structure.title` truthy and
`Array.isArray(structure.slides)`, then force `structure.slides[0].type`
to `'title'` when `structure.slides[0]` is truthy. -/

/-- Errors of the generation pipeline (the thrown `Error`s, per message). -/
inductive GenErr where
  /-- `throw new Error('No JSON found in response')` -/
  | noJson
  /-- `JSON.parse` threw a `SyntaxError` -/
  | badJson
  /-- `throw new Error('Invalid structure')` -/
  | invalidStructure
  /-- strict-mode `TypeError` from assigning `.type` on a non-object
  (an array first slide would instead accept the property; no theorem
  below depends on that corner) -/
  | firstSlideTypeError
  /-- a dynamic error while emitting the deck -/
  | emitError

/-- Field lookup on a parsed object (fields are duplicate-free after
`dedupeF`, so first match is the value). -/
def lookupJ : List (List Char × Json) → List Char → Option Json
  | [], _ => none
  | (k1, v) :: rest, k => if k1 = k then some v else lookupJ rest k

/-- `value.field` access: `undefined` (here `none`) on non-objects. -/
def getFieldJ : Json → List Char → Option Json
  | Json.obj fs, k => lookupJ fs k
  | _, _ => none

/-- The `title` property key. -/
def titleKey : List Char := "title".data

/-- The `slides` property key. -/
def slidesKey : List Char := "slides".data

/-- The `type` property key. -/
def typeKey : List Char := "type".data

/-- The `content` property key. -/
def contentKey : List Char := "content".data

/-- JavaScript truthiness of a JSON value. -/
def truthy : Json → Bool
  | Json.null => false
  | Json.bool b => b
  | Json.num n => n != 0
  | Json.str s => !s.isEmpty
  | Json.arr _ => true
  | Json.obj _ => true

/-- Truthiness of a possibly-absent value (`undefined` is falsy). -/
def truthyOpt : Option Json → Bool
  | some v => truthy v
  | none => false

/-- `Array.isArray` of a possibly-absent value. -/
def isArrOpt : Option Json → Bool
  | some (Json.arr _) => true
  | _ => false

/-- Property assignment `target.k = v` on a parsed value (only objects hold
properties in this model). -/
def setFieldJ (j : Json) (k : List Char) (v : Json) : Json :=
  match j with
  | Json.obj fs => Json.obj (upsertF fs k v)
  | other => other

/-- `if (structure.slides[0]) structure.slides[0].type = 'title';` —
a falsy first element (absent, `null`, `0`, `''`, `false`) is left alone;
a truthy object gets its `type` overwritten; a truthy primitive makes the
strict-mode assignment throw. -/
def forceFirstSlideTitle (v : Json) : Except GenErr Json :=
  match getFieldJ v slidesKey with
  | some (Json.arr []) => Except.ok v
  | some (Json.arr (s0 :: rest)) =>
    if truthy s0 then
      match s0 with
      | Json.obj fs =>
        Except.ok (setFieldJ v slidesKey
          (Json.arr (Json.obj (upsertF fs typeKey (Json.str titleKey)) :: rest)))
      | _ => Except.error GenErr.firstSlideTypeError
    else Except.ok v
  | _ => Except.ok v

/-- Validation and repair applied to the text located by `jsonMatch`. -/
def processMatch : Option (List Char) → Except GenErr Json
  | none => Except.error GenErr.noJson
  | some m =>
    match jsonParse m with
    | none => Except.error GenErr.badJson
    | some v =>
      if !truthyOpt (getFieldJ v titleKey) || !isArrOpt (getFieldJ v slidesKey) then
        Except.error GenErr.invalidStructure
      else forceFirstSlideTitle v

/-- The outline normalizer of `generatePresentationStructure`: strip Markdown
fences, trim, locate the JSON span, parse, validate, force the first slide's
type. -/
def parseStructure (responseText : List Char) : Except GenErr Json :=
  processMatch (jsonMatch (trimJs (stripFences responseText)))

/-! ## Theme extraction (`extractColorsFromTheme`, `extractFontsFromTheme`) -/

structure ColorScheme where
  primary : List Char
  secondary : List Char
  accent : List Char
  text : List Char
  background : List Char

/-- The documented default palette, duplicated at every fallback site of the
source. -/
def defaultColors : ColorScheme :=
  { primary := "#2563eb".data, secondary := "#7c3aed".data, accent := "#059669".data,
    text := "#374151".data, background := "#ffffff".data }

structure FontScheme where
  title : List Char
  body : List Char

def defaultFonts : FontScheme := { title := "Calibri".data, body := "Calibri".data }

/-- The capture of `/<a:clrScheme[^>]*>([\s\S]*?)<\/a:clrScheme>/`: after the
first `<a:clrScheme`, skip the attribute run to the first `>`, then capture
lazily up to the closing tag. -/
def schemeContent (themeXml : List Char) : Option (List Char) :=
  match scanAfter ("<a:clrScheme".data) themeXml with
  | none => none
  | some rest =>
    match splitAtChar '>' rest with
    | none => none
    | some (_, after) => takeBeforeLit ("</a:clrScheme>".data) after

/-- The `([A-F0-9]{6})"` tail of the color-token regex: six hex digits
followed by a closing quote. -/
def grabHex6 : List Char → Option (List Char)
  | a :: b :: c :: d :: e :: f :: q :: _ =>
    if isHexChar a && isHexChar b && isHexChar c && isHexChar d && isHexChar e &&
        isHexChar f && (q == '"') then some [a, b, c, d, e, f]
    else none
  | _ => none

/-- Scan for the first `val="` (case-insensitively, `/i`) that is followed by
a six-hex-digit token and a quote; the lazy `[\s\S]*?` keeps searching past
positions where the token part fails. -/
def findValHex6 : List Char → Option (List Char)
  | [] => none
  | c :: cs =>
    if startsCI ("val=\"".data) (c :: cs) then
      match grabHex6 (cs.drop 4) with
      | some hx => some hx
      | none => findValHex6 cs
    else findValHex6 cs

/-- One color-token regex `/<a:TAG>[\s\S]*?val="([A-F0-9]{6})"/i`: find the
tag, then the first valid token after it. -/
def findTagColor (tagLit : List Char) (content : List Char) : Option (List Char) :=
  match scanAfterCI tagLit content with
  | none => none
  | some rest => findValHex6 rest

/-- `#` + lower-cased token, as in `` `#${m[1].toLowerCase()}` ``. -/
def hexColorToken (hx : List Char) : List Char := '#' :: hx.map lowerHexChar

/-- `extractColorsFromTheme`: each of the four rôles is extracted
independently and keeps its default on a miss. -/
def extractColorsFromTheme (themeXml : List Char) : ColorScheme :=
  match schemeContent themeXml with
  | none => defaultColors
  | some content =>
    let dk1 := findTagColor ("<a:dk1>".data) content
    let lt1 := findTagColor ("<a:lt1>".data) content
    let accent1 := findTagColor ("<a:accent1>".data) content
    let accent2 := findTagColor ("<a:accent2>".data) content
    { primary := match accent1 with
        | some hx => hexColorToken hx
        | none => defaultColors.primary,
      secondary := match accent2 with
        | some hx => hexColorToken hx
        | none => defaultColors.secondary,
      accent := defaultColors.accent,
      text := match dk1 with
        | some hx => hexColorToken hx
        | none => defaultColors.text,
      background := match lt1 with
        | some hx => hexColorToken hx
        | none => defaultColors.background }

/-- A `attr="([^"]+)"` capture scan: find the first occurrence of the literal
`attrLit` (which ends in the opening quote) whose capture up to the next
quote is non-empty. -/
def scanAttrCapture (attrLit : List Char) : Nat → List Char → Option (List Char)
  | 0, _ => none
  | _ + 1, [] => none
  | f + 1, c :: cs =>
    if startsWithL attrLit (c :: cs) then
      match splitAtChar '"' (cs.drop (attrLit.length - 1)) with
      | some (captured, _) =>
        if captured.isEmpty then scanAttrCapture attrLit f cs else some captured
      | none => scanAttrCapture attrLit f cs
    else scanAttrCapture attrLit f cs

/-- `extractFontsFromTheme`: the first `typeface="..."` after `<a:majorFont>`
names the title font, after `<a:minorFont>` the body font. -/
def extractFontsFromTheme (themeXml : List Char) : FontScheme :=
  { title := match scanAfter ("<a:majorFont>".data) themeXml with
      | some rest => (scanAttrCapture ("typeface=\"".data) rest.length rest).getD defaultFonts.title
      | none => defaultFonts.title,
    body := match scanAfter ("<a:minorFont>".data) themeXml with
      | some rest => (scanAttrCapture ("typeface=\"".data) rest.length rest).getD defaultFonts.body
      | none => defaultFonts.body }

/-! ## Layout extraction (`extractMasterLayout`, `extractLayoutPositions`) -/

/-- A placeholder box in inches. -/
structure BoxQ where
  x : ℚ
  y : ℚ
  w : ℚ
  h : ℚ
deriving DecidableEq

structure LayoutRec where
  name : List Char
  titleBox : Option BoxQ
  contentBox : Option BoxQ

/-- EMU-to-inch conversion: divide by 914400. -/
def emuToInch (n : Nat) : ℚ := (n : ℚ) / 914400

/-- The hardcoded title-box fallback `{ x: 0.5, y: 0.5, w: 9, h: 1.2 }`. -/
def fallbackTitleBox : BoxQ := { x := 1/2, y := 1/2, w := 9, h := 6/5 }

/-- The hardcoded content-box fallback `{ x: 0.5, y: 2, w: 9, h: 4.5 }`. -/
def fallbackContentBox : BoxQ := { x := 1/2, y := 2, w := 9, h := 9/2 }

/-- Scan for `litA(\d+)litB(\d+)"`: the shape shared by the
`<a:off x="(\d+)" y="(\d+)"` and `<a:ext cx="(\d+)" cy="(\d+)"` parts.
On a partial failure the scan continues from the next position. -/
def scanPair (litA litB : List Char) : Nat → List Char → Option (Nat × Nat × List Char)
  | 0, _ => none
  | _ + 1, [] => none
  | f + 1, c :: cs =>
    if startsWithL litA (c :: cs) then
      match grabDigits (cs.drop (litA.length - 1)) with
      | some (x, r1) =>
        if startsWithL litB r1 then
          match grabDigits (r1.drop litB.length) with
          | some (y, r2) =>
            match r2 with
            | '"' :: r3 => some (x, y, r3)
            | _ => scanPair litA litB f cs
          | none => scanPair litA litB f cs
        else scanPair litA litB f cs
      | none => scanPair litA litB f cs
    else scanPair litA litB f cs

/-- The `<a:off x="(\d+)" y="(\d+)"[\s\S]*?<a:ext cx="(\d+)" cy="(\d+)"`
sub-match: the offset pair, then the first extent pair after it. -/
def scanOffExt (l : List Char) : Option (Nat × Nat × Nat × Nat) :=
  match scanPair ("<a:off x=\"".data) ("\" y=\"".data) l.length l with
  | none => none
  | some (x, y, rest) =>
    match scanPair ("<a:ext cx=\"".data) ("\" cy=\"".data) rest.length rest with
    | none => none
    | some (cx, cy, _) => some (x, y, cx, cy)

/-- The `<p:ph[^>]*type="TYP"` sub-match of the master regex: a `<p:ph`
whose attribute run (the non-`>` span) contains the literal `type="TYP"`;
the greedy `[^>]*` resumes after the last occurrence inside the span.
Positions without the literal are skipped, as the engine retries later
`<p:ph` occurrences. -/
def scanPhTyped (typLit : List Char) : Nat → List Char → Option (List Char)
  | 0, _ => none
  | _ + 1, [] => none
  | f + 1, l =>
    match scanAfter ("<p:ph".data) l with
    | none => none
    | some rest =>
      match splitAtChar '>' rest with
      | none => none
      | some (span, after) =>
        match afterLastLit typLit span with
        | some residue => some (residue ++ '>' :: after)
        | none => scanPhTyped typLit f rest

/-- One master-regex match
`/<p:sp[^>]*>[\s\S]*?<p:ph[^>]*type="TYP"[\s\S]*?<a:off...<a:ext.../`:
first `<p:sp...>`, then the first typed placeholder after it, then the first
offset/extent pairs after that.  Captures are returned in EMUs. -/
def extractMasterBox (typLit : List Char) (xml : List Char) : Option (Nat × Nat × Nat × Nat) :=
  match scanAfter ("<p:sp".data) xml with
  | none => none
  | some rest =>
    match splitAtChar '>' rest with
    | none => none
    | some (_, after) =>
      match scanPhTyped typLit after.length after with
      | none => none
      | some cont => scanOffExt cont

/-- `extractMasterLayout`: title box from the `type="title"` placeholder,
content box from the `type="body"` placeholder, each with its hardcoded
fallback.  The EMU captures are divided by 914400 with NO clamping.
The function never throws, so the `catch` returning `null` is dead. -/
def extractMasterLayout (masterXml : List Char) : Option LayoutRec :=
  let titleMatch := extractMasterBox ("type=\"title\"".data) masterXml
  let contentMatch := extractMasterBox ("type=\"body\"".data) masterXml
  some
    { name := "Master Layout".data,
      titleBox := some (match titleMatch with
        | some (x, y, cx, cy) =>
          { x := emuToInch x, y := emuToInch y, w := emuToInch cx, h := emuToInch cy }
        | none => fallbackTitleBox),
      contentBox := some (match contentMatch with
        | some (x, y, cx, cy) =>
          { x := emuToInch x, y := emuToInch y, w := emuToInch cx, h := emuToInch cy }
        | none => fallbackContentBox) }

/-- The shape contents captured by
`[...layoutXml.matchAll(/<p:sp[^>]*>([\s\S]*?)<\/p:sp>/g)]`, in order. -/
def collectShapes : Nat → List Char → List (List Char)
  | 0, _ => []
  | f + 1, l =>
    match scanAfter ("<p:sp".data) l with
    | none => []
    | some rest =>
      match splitAtChar '>' rest with
      | none => []
      | some (_, after) =>
        match splitAtLit ("</p:sp>".data) after with
        | none => []
        | some (content, after2) => content :: collectShapes f after2

/-- `/<p:ph[^>]*(?:type="([^"]+)")?[^>]*>/` succeeds on a shape iff a `<p:ph`
occurrence is followed by a `>`.  Note that the greedy `[^>]*` before the
optional group consumes the whole attribute run and the optional group then
matches empty, so the `type` capture NEVER participates: `phMatch[1]` is
always `undefined`. -/
def phPresent (shape : List Char) : Bool :=
  match scanAfter ("<p:ph".data) shape with
  | none => false
  | some rest => rest.contains '>'

/-- The canvas clamp of `extractLayoutPositions`:
`x,y` lower-clamped to 0 after conversion, `w,h` upper-clamped to 10 × 7.5. -/
def clampBox (x y cx cy : Nat) : BoxQ :=
  { x := max 0 (emuToInch x), y := max 0 (emuToInch y),
    w := min 10 (emuToInch cx), h := min (15/2 : ℚ) (emuToInch cy) }

/-- `extractLayoutPositions`: layout name from the first non-empty
`name="..."` capture, then a pass over all `<p:sp>` shapes.  Because the
`type` capture of `phMatch` never participates (see `phPresent`), `phType`
is always `'content'`: the title branch is unreachable and every positioned
placeholder shape overwrites the content box (`!titleBox` always holds).
Nothing here throws, so the `catch` returning `null` is dead. -/
def layoutStep (acc : Option BoxQ × Option BoxQ) (shape : List Char) :
    Option BoxQ × Option BoxQ :=
  if phPresent shape then
    let phType : List Char := "content".data
    match scanOffExt shape with
    | some (x, y, cx, cy) =>
      let box := clampBox x y cx cy
      if phType = "title".data ∨ phType = "ctrTitle".data then (some box, acc.2)
      else if phType = "body".data ∨ phType = "obj".data ∨ acc.1 = none then (acc.1, some box)
      else acc
    | none => acc
  else acc

def extractLayoutPositions (layoutXml : List Char) : Option LayoutRec :=
  let layoutName := (scanAttrCapture ("name=\"".data) layoutXml.length layoutXml).getD
    ("Content Layout".data)
  let boxes := (collectShapes layoutXml.length layoutXml).foldl layoutStep (none, none)
  some
    { name := layoutName,
      titleBox := some (boxes.1.getD fallbackTitleBox),
      contentBox := some (boxes.2.getD fallbackContentBox) }

/-! ## Template model building (`extractTemplateData`, backend
`analyzeTemplate`) -/

structure SlideSize where
  width : ℚ
  height : ℚ

structure TemplateData where
  colors : ColorScheme
  fonts : FontScheme
  layouts : List LayoutRec
  images : List (List Char × List Char)
  slideSize : Option SlideSize

/-- The fully-default template model returned on any top-level failure. -/
def defaultTemplateData : TemplateData :=
  { colors := defaultColors, fonts := defaultFonts, layouts := [], images := [],
    slideSize := some { width := 10, height := 15/2 } }

/-- The relevant entries of an opened archive, as located by the fixed
`zipContent.file(...)` lookups and prefix/suffix filters: the theme entry,
the slide-master entry, the slide-layout entries in enumeration order, and
the media entries (name, base64 payload) in enumeration order. -/
structure Archive where
  theme : Option (List Char)
  master : Option (List Char)
  layoutFiles : List (List Char)
  mediaFiles : List (List Char × List Char)

/-- The outcome of `zip.loadAsync` on the uploaded file. -/
inductive ZipOpen where
  | failed (msg : List Char)
  | opened (z : Archive)

/-- `fileName = mediaFile.split('/').pop()`. -/
def baseName (l : List Char) : List Char :=
  (l.reverse.takeWhile (fun c => c != '/')).reverse

/-- `extractTemplateData`: best-effort composition of the extractors over one
opened archive; the surrounding `try/catch` degrades any top-level failure to
the fully-default template model. -/
def extractTemplateData (file : ZipOpen) : TemplateData :=
  match file with
  | ZipOpen.failed _ => defaultTemplateData
  | ZipOpen.opened z =>
    let colors := match z.theme with
      | some t => extractColorsFromTheme t
      | none => defaultColors
    let fonts := match z.theme with
      | some t => extractFontsFromTheme t
      | none => defaultFonts
    let masterLayouts := match z.master with
      | some m =>
        match extractMasterLayout m with
        | some lay => [lay]
        | none => []
      | none => []
    let fileLayouts := (z.layoutFiles.take 3).foldr
      (fun xml acc =>
        match extractLayoutPositions xml with
        | some lay => lay :: acc
        | none => acc) []
    let images := (z.mediaFiles.take 5).foldl
      (fun acc p =>
        let fileName := baseName p.1
        (acc.filter (fun q => q.1 ≠ fileName)) ++
          [(fileName, "data:image/png;base64,".data ++ p.2)]) []
    { colors := colors, fonts := fonts, layouts := masterLayouts ++ fileLayouts,
      images := images, slideSize := some { width := 10, height := 15/2 } }

/-- The backend template description built by `templateAnalyzer.js`. -/
structure BackendTemplateInfo where
  colors : List (List Char)
  fonts : List (List Char)
  layouts : List (List Char)
  images : List (List Char × List Char)

/-- Backend `analyzeTemplate`: unlike `extractTemplateData`, its `catch`
RETHROWS (`throw new Error('Failed to analyze template: ' + error.message)`),
so an unreadable archive fails the request.  The xml2js-based success path is
abstracted as the `extract` parameter; no claim depends on it. -/
def analyzeTemplate (opened : ZipOpen) (extract : Archive → BackendTemplateInfo) :
    Except (List Char) BackendTemplateInfo :=
  match opened with
  | ZipOpen.failed msg => Except.error ("Failed to analyze template: ".data ++ msg)
  | ZipOpen.opened z => Except.ok (extract z)

/-! ## Layout selection, filename derivation and deck emission
(`createPresentationWithTemplate`) -/

/-- `l.name.toLowerCase().includes('title')` (ASCII model). -/
def nameHasTitle (l : LayoutRec) : Bool := (scanAfterCI titleKey l.name).isSome

/-- The hardcoded fallback layout used when no layout was selected. -/
def defaultLayoutRec : LayoutRec :=
  { name := "Default".data, titleBox := some fallbackTitleBox,
    contentBox := some fallbackContentBox }

/-- The layout choice of `createPresentationWithTemplate`:
`layouts[0]` by default; for a `'title'` slide with more than one layout, the
first layout whose name contains `'title'` (case-insensitively) or else
`layouts[0]`; for other slides with more than one layout, the first whose
name does not contain `'title'`, or else `layouts[1]`, or else `layouts[0]`;
the hardcoded default when the choice is still undefined (empty list). -/
def selectLayout (isTitleSlide : Bool) (layouts : List LayoutRec) : LayoutRec :=
  let chosen : Option LayoutRec :=
    if isTitleSlide && decide (1 < layouts.length) then
      match layouts.find? nameHasTitle with
      | some l => some l
      | none => layouts.head?
    else if 1 < layouts.length then
      match layouts.find? (fun l => ! nameHasTitle l) with
      | some l => some l
      | none =>
        match layouts.get? 1 with
        | some l => some l
        | none => layouts.head?
    else layouts.head?
  chosen.getD defaultLayoutRec

/-- `structure.title.replace(/[^\w\s-]/g, '')`. -/
def stripNonWord (l : List Char) : List Char :=
  l.filter (fun c => isWordChar c || isJsWs c || c == '-')

/-- `.replace(/\s+/g, '_')`: each maximal whitespace run becomes one
underscore (emitted at the end of the run). -/
def collapseWs : List Char → List Char
  | [] => []
  | c :: cs =>
    if isJsWs c then
      match cs with
      | d :: _ => if isJsWs d then collapseWs cs else '_' :: collapseWs cs
      | [] => ['_']
    else c :: collapseWs cs

/-- `structure.title.replace(/[^\w\s-]/g, '').trim().replace(/\s+/g, '_').substring(0, 50)`. -/
def cleanTitle (title : List Char) : List Char :=
  (collapseWs (trimJs (stripNonWord title))).take 50

/-- The derived file base: `cleanTitle || 'Presentation'`. -/
def deriveFileBase (title : List Char) : List Char :=
  let ct := cleanTitle title
  if ct.isEmpty then "Presentation".data else ct

/-- The full output file name `` `${cleanTitle || 'Presentation'}.pptx` ``. -/
def deriveFileName (title : List Char) : List Char := deriveFileBase title ++ ".pptx".data

/-- One `slide.addText` directive. -/
structure TextDir where
  x : ℚ
  y : ℚ
  w : ℚ
  h : ℚ
  text : List Char
  fontSize : ℚ
  color : List Char
  fontFace : List Char

/-- One emitted slide: its text directives and optional background fill. -/
structure SlideOut where
  texts : List TextDir
  background : Option (List Char)

/-- The emitted deck: slides plus the derived file name passed to
`pptx.writeFile`. -/
structure Deck where
  slides : List SlideOut
  fileName : List Char

/-- JavaScript `a || b` on an optionally-present number: absent or zero
(falsy) falls back. -/
def orQ (o : Option ℚ) (d : ℚ) : ℚ :=
  match o with
  | some v => if v = 0 then d else v
  | none => d

/-- `slideData.type === 'title'`. -/
def isTitleType (slideData : Json) : Bool :=
  match getFieldJ slideData typeKey with
  | some (Json.str t) => t = "title".data
  | _ => false

/-- `slideData.type === 'bullets'`. -/
def isBulletsType (slideData : Json) : Bool :=
  match getFieldJ slideData typeKey with
  | some (Json.str t) => t = "bullets".data
  | _ => false

/-- `content.join(sep)` for string entries. -/
def joinSep (sep : List Char) : List (List Char) → List Char
  | [] => []
  | [s] => s
  | s :: rest => s ++ sep ++ joinSep sep rest

/-- Emission of one slide.  `slideData.content.length`/`.join`/`.map` require
an array of strings here: a missing or non-array `content` throws a dynamic
`TypeError` in the source and is modelled as `emitError` (the deck library's
stringification of non-string entries is outside the model).  A non-string
`title` is passed through to the deck library; it is modelled as empty
text. -/
def emitSlide (colors : ColorScheme) (fonts : FontScheme) (layouts : List LayoutRec)
    (index : Nat) (slideData : Json) : Except GenErr SlideOut := do
  let layout := selectLayout (isTitleType slideData) layouts
  let titleText : List Char := match getFieldJ slideData titleKey with
    | some (Json.str t) => t
    | _ => []
  let contentStrs ← match getFieldJ slideData contentKey with
    | some (Json.arr xs) =>
      xs.foldr (fun x acc => do
        let strs ← acc
        match x with
        | Json.str s => Except.ok (s :: strs)
        | _ => Except.error GenErr.emitError) (Except.ok ([] : List (List Char)))
    | _ => Except.error GenErr.emitError
  let background : Option (List Char) :=
    if !colors.background.isEmpty ∧ colors.background ≠ "#ffffff".data then
      some colors.background
    else none
  if isTitleType slideData || index == 0 then
    let titleDir : TextDir :=
      { x := orQ (layout.titleBox.map (·.x)) 1, y := orQ (layout.titleBox.map (·.y)) (5/2),
        w := orQ (layout.titleBox.map (·.w)) 8, h := orQ (layout.titleBox.map (·.h)) (3/2),
        text := titleText, fontSize := 36, color := colors.primary, fontFace := fonts.title }
    let dirs :=
      if 0 < contentStrs.length then
        [titleDir,
          { x := orQ (layout.contentBox.map (·.x)) 1,
            y := orQ (layout.titleBox.map (·.y)) (5/2) + orQ (layout.titleBox.map (·.h)) (3/2) + 1/2,
            w := orQ (layout.contentBox.map (·.w)) 8, h := 1,
            text := joinSep (" ".data) contentStrs, fontSize := 18, color := colors.text,
            fontFace := fonts.body }]
      else [titleDir]
    pure { texts := dirs, background := background }
  else
    let titleDir : TextDir :=
      { x := orQ (layout.titleBox.map (·.x)) (1/2), y := orQ (layout.titleBox.map (·.y)) (1/2),
        w := orQ (layout.titleBox.map (·.w)) 9, h := orQ (layout.titleBox.map (·.h)) (6/5),
        text := titleText, fontSize := 28, color := colors.primary, fontFace := fonts.title }
    let contentText :=
      if isBulletsType slideData then
        joinSep ("\n".data) (contentStrs.map (fun item => '\u2022' :: ' ' :: item))
      else joinSep ("\n\n".data) contentStrs
    let contentDir : TextDir :=
      { x := orQ (layout.contentBox.map (·.x)) (1/2), y := orQ (layout.contentBox.map (·.y)) 2,
        w := orQ (layout.contentBox.map (·.w)) 9, h := orQ (layout.contentBox.map (·.h)) (9/2),
        text := contentText, fontSize := 16, color := colors.text, fontFace := fonts.body }
    pure { texts := [titleDir, contentDir], background := background }

/-- `structure.slides.forEach((slideData, index) => ...)`. -/
def emitAll (colors : ColorScheme) (fonts : FontScheme) (layouts : List LayoutRec) :
    Nat → List Json → Except GenErr (List SlideOut)
  | _, [] => Except.ok []
  | i, s :: rest => do
    let o ← emitSlide colors fonts layouts i s
    let os ← emitAll colors fonts layouts (i + 1) rest
    Except.ok (o :: os)

/-- `createPresentationWithTemplate`: resolve colors/fonts/layouts with their
defaults, emit every slide in order, then derive the file name from
`structure.title` and write the deck. -/
def createPresentationWithTemplate (structureJ : Json) (templateData : Option TemplateData) :
    Except GenErr Deck := do
  let colors := match templateData with
    | some t => t.colors
    | none => defaultColors
  let fonts := match templateData with
    | some t => t.fonts
    | none => defaultFonts
  let layouts := match templateData with
    | some t => t.layouts
    | none => []
  let slides ← match getFieldJ structureJ slidesKey with
    | some (Json.arr xs) => Except.ok xs
    | _ => Except.error GenErr.emitError
  let outs ← emitAll colors fonts layouts 0 slides
  let title ← match getFieldJ structureJ titleKey with
    | some (Json.str t) => Except.ok t
    | _ => Except.error GenErr.emitError
  Except.ok { slides := outs, fileName := deriveFileName title }

/-! ## Lemmas about fence stripping -/

def pat2L : List Char := ['\x60', '\x60', '\x60', 'j', 's', 'o', 'n']
def pat3L : List Char := ['\n', '\x60', '\x60', '\x60']
def pat4L : List Char := ['\x60', '\x60', '\x60']
def jsonLit : List Char := ['j', 's', 'o', 'n']

/-- The trailing fence of a Markdown code block. -/
def closeFence : List Char := ['\n', '\x60', '\x60', '\x60']

/-- Wrapping a text in a Markdown code fence. -/
def fenceWrap (j : List Char) : List Char :=
  '\x60' :: '\x60' :: '\x60' :: 'j' :: 's' :: 'o' :: 'n' :: '\n' :: (j ++ closeFence)

/-- Observable of a normalized outline: its first slide carries
`type: 'title'`. -/
def firstSlideTypeTitle (v : Json) : Bool :=
  match getFieldJ v slidesKey with
  | some (Json.arr (s :: _)) =>
    match getFieldJ s typeKey with
    | some (Json.str t) => t = "title".data
    | _ => false
  | _ => false

/-- The canvas-clamp invariant of the specification: coordinates
non-negative, width/height within the 10 × 7.5 inch canvas. -/
def goodBox (b : BoxQ) : Prop := 0 ≤ b.x ∧ 0 ≤ b.y ∧ b.w ≤ 10 ∧ b.h ≤ 15/2

/-- A master XML whose title placeholder has a 100-inch-wide extent
(cx = 91440000 EMU). -/
def cexMasterXml : List Char :=
  "<p:sp><p:ph type=\"title\"/><a:off x=\"0\" y=\"0\"/><a:ext cx=\"91440000\" cy=\"914400\"/>".data

/-- A raw model response whose `slides` array starts with `null`. -/
def rawNullSlide : List Char := "\x7b\"title\":\"T\",\"slides\":[null]\x7d".data

/-- The outline the normalizer returns for `rawNullSlide`. -/
def objNullSlide : Json :=
  Json.obj [("title".data, Json.str ("T".data)), ("slides".data, Json.arr [Json.null])]

/-- A valid JSON object followed by trailing prose that contains a right
brace. -/
def rawTrailing : List Char := "\x7b\"title\":\"T\",\"slides\":[]\x7d x\x7d".data

/-- The same JSON object alone. -/
def rawObjOnly : List Char := "\x7b\"title\":\"T\",\"slides\":[]\x7d".data

/-- The outline parsed from `rawObjOnly`: truthy title, empty slides. -/
def objEmptySlides : Json :=
  Json.obj [("title".data, Json.str ("T".data)), ("slides".data, Json.arr [])]

/-! ## Theme color-scheme model (order and presence of the four tags) -/

inductive SchemeTag where
  | dk1 | lt1 | a1 | a2
deriving DecidableEq

def tagLitOf : SchemeTag → List Char
  | .dk1 => "<a:dk1>".data
  | .lt1 => "<a:lt1>".data
  | .a1 => "<a:accent1>".data
  | .a2 => "<a:accent2>".data

def blockOf : SchemeTag → List Char → List Char
  | .dk1, hx => "<a:dk1><a:srgbClr val=\"".data ++ (hx ++ "\"/></a:dk1>".data)
  | .lt1, hx => "<a:lt1><a:srgbClr val=\"".data ++ (hx ++ "\"/></a:lt1>".data)
  | .a1, hx => "<a:accent1><a:srgbClr val=\"".data ++ (hx ++ "\"/></a:accent1>".data)
  | .a2, hx => "<a:accent2><a:srgbClr val=\"".data ++ (hx ++ "\"/></a:accent2>".data)

def clrClose : List Char := "</a:clrScheme>".data

def clrOpen : List Char := "<a:clrScheme>".data

def isHex6 : List Char → Bool
  | [a, b, c, d, e, f] =>
    isHexChar a && isHexChar b && isHexChar c && isHexChar d && isHexChar e && isHexChar f
  | _ => false

def lookFor (t : SchemeTag) : List (SchemeTag × List Char) → Option (List Char)
  | [] => none
  | (u, hx) :: rest => if u = t then some hx else lookFor t rest

def blocksOf (items : List (SchemeTag × List Char)) : List Char :=
  (items.map (fun it => blockOf it.1 it.2)).flatten

def schemeWrap (body : List Char) : List Char := clrOpen ++ (body ++ clrClose)

def tokOf (t : SchemeTag) (d l p q : List Char) : List Char :=
  match t with
  | .dk1 => d
  | .lt1 => l
  | .a1 => p
  | .a2 => q

def schemeItems (order : List SchemeTag) (d l p q : List Char) :
    List (SchemeTag × List Char) :=
  order.map (fun t => (t, tokOf t d l p q))

def schemeXml (order : List SchemeTag) (d l p q : List Char) : List Char :=
  schemeWrap (blocksOf (schemeItems order d l p q))

def schemeItemsOpt (bd bl bp bq : Bool) (d l p q : List Char) :
    List (SchemeTag × List Char) :=
  (if bd then [(.dk1, d)] else []) ++ (if bl then [(.lt1, l)] else []) ++
    (if bp then [(.a1, p)] else []) ++ (if bq then [(.a2, q)] else [])

def schemeXmlOpt (bd bl bp bq : Bool) (d l p q : List Char) : List Char :=
  schemeWrap (blocksOf (schemeItemsOpt bd bl bp bq d l p q))

def allOrders : List (List SchemeTag) :=
  [[.dk1, .lt1, .a1, .a2],
    [.dk1, .lt1, .a2, .a1],
    [.dk1, .a1, .lt1, .a2],
    [.dk1, .a1, .a2, .lt1],
    [.dk1, .a2, .lt1, .a1],
    [.dk1, .a2, .a1, .lt1],
    [.lt1, .dk1, .a1, .a2],
    [.lt1, .dk1, .a2, .a1],
    [.lt1, .a1, .dk1, .a2],
    [.lt1, .a1, .a2, .dk1],
    [.lt1, .a2, .dk1, .a1],
    [.lt1, .a2, .a1, .dk1],
    [.a1, .dk1, .lt1, .a2],
    [.a1, .dk1, .a2, .lt1],
    [.a1, .lt1, .dk1, .a2],
    [.a1, .lt1, .a2, .dk1],
    [.a1, .a2, .dk1, .lt1],
    [.a1, .a2, .lt1, .dk1],
    [.a2, .dk1, .lt1, .a1],
    [.a2, .dk1, .a1, .lt1],
    [.a2, .lt1, .dk1, .a1],
    [.a2, .lt1, .a1, .dk1],
    [.a2, .a1, .dk1, .lt1],
    [.a2, .a1, .lt1, .dk1]]

theorem startsTake {P X : List Char} : X.take P.length = P ↔ ∃ r, X = P ++ r := by
  constructor
  · intro h
    exact ⟨X.drop P.length, by conv_lhs => rw [← List.take_append_drop P.length X, h]⟩
  · rintro ⟨r, rfl⟩
    rw [List.take_append_of_le_length (by simp), List.take_of_length_le (by simp)]

theorem stripE1 (X : List Char) :
    stripFences ('\x60' :: '\x60' :: '\x60' :: 'j' :: 's' :: 'o' :: 'n' :: '\n' :: X)
      = stripFences X := rfl

theorem stripE3 (X : List Char) :
    stripFences ('\n' :: '\x60' :: '\x60' :: '\x60' :: X) = stripFences X := rfl

set_option maxHeartbeats 1000000 in
theorem stripE2 (c : Char) (X : List Char) (h : c ≠ '\n') :
    stripFences ('\x60' :: '\x60' :: '\x60' :: 'j' :: 's' :: 'o' :: 'n' :: c :: X)
      = stripFences (c :: X) := by
  rw [stripFences.eq_def]
  split
  · rename_i heq
    simp at heq
  · rename_i heq
    injection heq with _ heq; injection heq with _ heq; injection heq with _ heq
    injection heq with _ heq; injection heq with _ heq; injection heq with _ heq
    injection heq with _ heq
    injection heq with hc _
    exact absurd hc h
  · rename_i hcond heq
    injection heq with _ heq; injection heq with _ heq; injection heq with _ heq
    injection heq with _ heq; injection heq with _ heq; injection heq with _ heq
    injection heq with _ heq
    rw [← heq]
  · rename_i heq
    simp at heq
  · rename_i h5 h4 heq
    injection heq with _ heq; injection heq with _ heq; injection heq with _ heq
    exact (h4 (c :: X) heq.symm).elim
  · rename_i h1 h2 h3 h4 heq
    injection heq with hc heq
    exact (h2 (c :: X) hc.symm heq.symm).elim

set_option maxHeartbeats 1000000 in
theorem stripE4 (X : List Char) (h : X.take 4 ≠ jsonLit) :
    stripFences ('\x60' :: '\x60' :: '\x60' :: X) = stripFences X := by
  rw [stripFences.eq_def]
  split <;> (try (injections <;> subst_vars)) <;> simp_all [jsonLit]

set_option maxHeartbeats 1000000 in
theorem stripE5 (c : Char) (cs : List Char)
    (h3 : (c :: cs).take 4 ≠ pat3L) (h4 : (c :: cs).take 3 ≠ pat4L) :
    stripFences (c :: cs) = c :: stripFences cs := by
  rw [stripFences.eq_def]
  split <;> (try (injections <;> subst_vars)) <;> simp_all [pat3L, pat4L]

theorem transportJ (X : List Char) (h : X.take 4 ≠ jsonLit) :
    (X ++ closeFence).take 4 ≠ jsonLit := by
  by_cases hlen : 4 ≤ X.length
  · rwa [List.take_append_of_le_length hlen]
  · rw [List.take_append_eq_append_take, List.take_of_length_le (by omega)]
    have hup : X.length < 4 := by omega
    interval_cases hx : X.length
    · simp [closeFence, jsonLit, List.eq_nil_of_length_eq_zero hx]
    · obtain ⟨a, rfl⟩ := List.length_eq_one.1 hx
      simp [closeFence, jsonLit]
    · obtain ⟨a, b, rfl⟩ := List.length_eq_two.1 hx
      simp [closeFence, jsonLit]
    · obtain ⟨a, b, c, rfl⟩ := List.length_eq_three.1 hx
      simp [closeFence, jsonLit]

theorem transport3 (c : Char) (cs : List Char) (h : (c :: cs).take 4 ≠ pat3L) :
    ((c :: cs) ++ closeFence).take 4 ≠ pat3L := by
  by_cases hlen : 4 ≤ (c :: cs).length
  · rwa [List.take_append_of_le_length hlen]
  · have hup : cs.length < 3 := by simp at hlen; omega
    rw [List.take_append_eq_append_take, List.take_of_length_le (by simp; omega)]
    interval_cases hx : cs.length
    · simp [closeFence, pat3L, List.eq_nil_of_length_eq_zero hx]
    · obtain ⟨a, rfl⟩ := List.length_eq_one.1 hx
      simp [closeFence, pat3L]
    · obtain ⟨a, b, rfl⟩ := List.length_eq_two.1 hx
      simp [closeFence, pat3L]

theorem transport4 (c : Char) (cs : List Char) (h : (c :: cs).take 3 ≠ pat4L) :
    ((c :: cs) ++ closeFence).take 3 ≠ pat4L := by
  by_cases hlen : 3 ≤ (c :: cs).length
  · rwa [List.take_append_of_le_length hlen]
  · have hup : cs.length < 2 := by simp at hlen; omega
    rw [List.take_append_eq_append_take, List.take_of_length_le (by simp; omega)]
    interval_cases hx : cs.length
    · simp [closeFence, pat4L, List.eq_nil_of_length_eq_zero hx]
    · obtain ⟨a, rfl⟩ := List.length_eq_one.1 hx
      simp [closeFence, pat4L]

set_option maxHeartbeats 1000000 in
theorem strip_close_aux : ∀ n, ∀ j : List Char, j.length ≤ n →
    stripFences (j ++ closeFence) = stripFences j := by
  intro n
  induction n with
  | zero =>
    intro j hj
    rw [List.eq_nil_of_length_eq_zero (Nat.le_zero.1 hj)]
    rfl
  | succ n ih =>
    intro j hj
    by_cases b2 : j.take pat2L.length = pat2L
    · obtain ⟨r, rfl⟩ := startsTake.1 b2
      match r with
      | [] => rfl
      | c :: t =>
        by_cases hc : c = '\n'
        · subst hc
          show stripFences (t ++ closeFence) = stripFences t
          apply ih
          simp [pat2L] at hj
          omega
        · have lhs : (pat2L ++ c :: t) ++ closeFence
              = '\x60' :: '\x60' :: '\x60' :: 'j' :: 's' :: 'o' :: 'n' :: c :: (t ++ closeFence) := rfl
          rw [lhs, stripE2 _ _ hc]
          have rhs : pat2L ++ c :: t
              = '\x60' :: '\x60' :: '\x60' :: 'j' :: 's' :: 'o' :: 'n' :: c :: t := rfl
          rw [rhs, stripE2 _ _ hc]
          have hrec : stripFences ((c :: t) ++ closeFence) = stripFences (c :: t) := by
            apply ih
            simp [pat2L] at hj
            simp
            omega
          exact hrec
    · by_cases b3 : j.take pat3L.length = pat3L
      · obtain ⟨r, rfl⟩ := startsTake.1 b3
        have lhs : (pat3L ++ r) ++ closeFence
            = '\n' :: '\x60' :: '\x60' :: '\x60' :: (r ++ closeFence) := rfl
        rw [lhs, stripE3]
        have rhs : pat3L ++ r = '\n' :: '\x60' :: '\x60' :: '\x60' :: r := rfl
        rw [rhs, stripE3]
        apply ih
        simp [pat3L] at hj
        omega
      · by_cases b4 : j.take pat4L.length = pat4L
        · obtain ⟨r, rfl⟩ := startsTake.1 b4
          have hr4 : r.take 4 ≠ jsonLit := by
            intro hcon
            apply b2
            rw [show pat2L.length = 7 from rfl,
              show (pat4L ++ r) = '\x60' :: '\x60' :: '\x60' :: r from rfl]
            simp only [List.take_succ_cons]
            rw [hcon]
            rfl
          have lhs : (pat4L ++ r) ++ closeFence
              = '\x60' :: '\x60' :: '\x60' :: (r ++ closeFence) := rfl
          rw [lhs, stripE4 _ (transportJ r hr4)]
          have rhs : pat4L ++ r = '\x60' :: '\x60' :: '\x60' :: r := rfl
          rw [rhs, stripE4 _ hr4]
          apply ih
          simp [pat4L] at hj
          omega
        · match j with
          | [] => rfl
          | c :: cs =>
            rw [show pat3L.length = 4 from rfl] at b3
            rw [show pat4L.length = 3 from rfl] at b4
            have lhs : (c :: cs) ++ closeFence = c :: (cs ++ closeFence) := rfl
            have e5l := stripE5 c (cs ++ closeFence)
              (by rw [← lhs]; exact transport3 c cs b3)
              (by rw [← lhs]; exact transport4 c cs b4)
            rw [lhs, e5l, stripE5 c cs b3 b4]
            have hrec : stripFences (cs ++ closeFence) = stripFences cs := by
              apply ih
              simp at hj
              omega
            rw [hrec]

/-- Appending a closing Markdown fence does not change the cleaned text. -/
theorem strip_close (j : List Char) :
    stripFences (j ++ closeFence) = stripFences j :=
  strip_close_aux j.length j le_rfl

/-- A text without backticks is left unchanged by fence stripping. -/
theorem strip_no_tick : ∀ l : List Char, '\x60' ∉ l → stripFences l = l := by
  intro l
  induction l with
  | nil => intro _; rfl
  | cons c cs ih =>
    intro h
    have hc : c ≠ '\x60' := fun hx => h (hx ▸ List.mem_cons_self c cs)
    have hcs : '\x60' ∉ cs := fun hx => h (List.mem_cons_of_mem c hx)
    rw [stripE5 c cs ?h3 ?h4, ih hcs]
    case h4 =>
      intro hcon
      apply hc
      have : (c :: cs).take 3 = c :: cs.take 2 := rfl
      rw [this] at hcon
      exact (List.cons.injEq _ _ _ _ ▸ hcon).1
    case h3 =>
      intro hcon
      have : (c :: cs).take 4 = c :: cs.take 3 := rfl
      rw [this] at hcon
      have h2 := (List.cons.injEq _ _ _ _ ▸ hcon).2
      apply hcs
      have : '\x60' ∈ cs.take 3 := by rw [h2]; simp [pat3L]
      exact List.mem_of_mem_take this

/-! ## Lemmas about the JSON-span match -/

theorem tlr_eq_none {l : List Char} : takeToLastRbrace l = none ↔ rbraceC ∉ l := by
  induction l with
  | nil => simp [takeToLastRbrace]
  | cons c cs ih =>
    rw [takeToLastRbrace]
    cases htlr : takeToLastRbrace cs with
    | some t =>
      have hmem : rbraceC ∈ cs := by
        by_contra hx
        rw [ih.2 hx] at htlr
        exact Option.noConfusion htlr
      simp [List.mem_cons, hmem]
    | none =>
      have hmem : rbraceC ∉ cs := ih.1 htlr
      by_cases hc : c = rbraceC
      · simp [hc]
      · simp only [if_neg hc]
        simp [List.mem_cons, hmem]
        exact fun h => hc h.symm

theorem tlr_append {rest t : List Char} (h : rbraceC ∉ t) :
    takeToLastRbrace (rest ++ t) = takeToLastRbrace rest := by
  induction rest with
  | nil => simp [tlr_eq_none.2 h, takeToLastRbrace]
  | cons c cs ih =>
    show takeToLastRbrace (c :: (cs ++ t)) = _
    rw [takeToLastRbrace, takeToLastRbrace, ih]

theorem jsonMatch_none_of_no_rb {l : List Char} (h : rbraceC ∉ l) : jsonMatch l = none := by
  induction l with
  | nil => rfl
  | cons c cs ih =>
    have hcs : rbraceC ∉ cs := fun hx => h (List.mem_cons_of_mem c hx)
    simp only [jsonMatch]
    by_cases hc : c = lbraceC
    · simp [hc, tlr_eq_none.2 hcs, ih hcs]
    · simp [hc, ih hcs]

theorem jsonMatch_none_of_no_lb {l : List Char} (h : lbraceC ∉ l) : jsonMatch l = none := by
  induction l with
  | nil => rfl
  | cons c cs ih =>
    have hc : c ≠ lbraceC := fun hx => h (hx ▸ List.mem_cons_self c cs)
    have hcs : lbraceC ∉ cs := fun hx => h (List.mem_cons_of_mem c hx)
    simp [jsonMatch, hc, ih hcs]

theorem jsonMatch_append {l t : List Char} (h1 : lbraceC ∉ t) (h2 : rbraceC ∉ t) :
    jsonMatch (l ++ t) = jsonMatch l := by
  induction l with
  | nil => simp [jsonMatch_none_of_no_lb h1, jsonMatch]
  | cons c cs ih =>
    show jsonMatch (c :: (cs ++ t)) = _
    rw [jsonMatch, jsonMatch, tlr_append h2, ih]

theorem jsonMatch_dropWhileWs (l : List Char) :
    jsonMatch (l.dropWhile isJsWs) = jsonMatch l := by
  induction l with
  | nil => rfl
  | cons c cs ih =>
    by_cases hw : isJsWs c
    · have hc : c ≠ lbraceC := by
        intro hx
        rw [hx] at hw
        simp [isJsWs, lbraceC] at hw
      rw [List.dropWhile_cons_of_pos hw]
      rw [ih]
      simp [jsonMatch, hc]
    · rw [List.dropWhile_cons_of_neg hw]

theorem trim_decomp (l : List Char) :
    ∃ t, l.dropWhile isJsWs = trimJs l ++ t ∧ ∀ c ∈ t, isJsWs c = true := by
  refine ⟨((l.dropWhile isJsWs).reverse.takeWhile isJsWs).reverse, ?heq, ?hmem⟩
  case heq =>
    conv_lhs => rw [← List.reverse_reverse (l.dropWhile isJsWs)]
    conv_lhs =>
      rw [← List.takeWhile_append_dropWhile (p := isJsWs) (l := (l.dropWhile isJsWs).reverse)]
    rw [List.reverse_append]
    rfl
  case hmem =>
    intro c hc
    rw [List.mem_reverse] at hc
    exact List.mem_takeWhile_imp hc

theorem jsonMatch_trim (l : List Char) : jsonMatch (trimJs l) = jsonMatch l := by
  obtain ⟨t, hm, ht⟩ := trim_decomp l
  have h1 : lbraceC ∉ t := by
    intro hx
    have := ht _ hx
    simp [isJsWs, lbraceC] at this
  have h2 : rbraceC ∉ t := by
    intro hx
    have := ht _ hx
    simp [isJsWs, rbraceC] at this
  calc jsonMatch (trimJs l) = jsonMatch (trimJs l ++ t) := (jsonMatch_append h1 h2).symm
    _ = jsonMatch (l.dropWhile isJsWs) := by rw [← hm]
    _ = jsonMatch l := jsonMatch_dropWhileWs l

theorem jsonMatch_none_iff (l : List Char) : jsonMatch l = none ↔ hasJsonSpan l = false := by
  induction l with
  | nil => simp [jsonMatch, hasJsonSpan]
  | cons c cs ih =>
    by_cases hc : c = lbraceC
    · subst hc
      have hdw : (lbraceC :: cs).dropWhile (fun x => x != lbraceC) = lbraceC :: cs := by
        rw [List.dropWhile_cons_of_neg]
        simp
      rw [hasJsonSpan, hdw]
      simp only [jsonMatch, if_pos rfl]
      cases htlr : takeToLastRbrace cs with
      | some t =>
        have hmem : rbraceC ∈ cs := by
          by_contra hx
          rw [tlr_eq_none.2 hx] at htlr
          exact Option.noConfusion htlr
        simpa using hmem
      | none =>
        have hmem : rbraceC ∉ cs := tlr_eq_none.1 htlr
        rw [jsonMatch_none_of_no_rb hmem]
        simpa using hmem
    · have hdw : (c :: cs).dropWhile (fun x => x != lbraceC)
          = cs.dropWhile (fun x => x != lbraceC) := by
        rw [List.dropWhile_cons_of_pos]
        simp [hc]
      have hspan : hasJsonSpan (c :: cs) = hasJsonSpan cs := by
        rw [hasJsonSpan, hdw, hasJsonSpan]
      have hjm : jsonMatch (c :: cs) = jsonMatch cs := by simp [jsonMatch, hc]
      rw [hspan, hjm, ih]

/-! ## Claim theorems (part 1) -/

/-- C8: for every raw model text in which, after code-fence stripping, no
left brace with a later right brace exists, the outline normalizer raises
the `MalformedOutline` condition (`No JSON found in response`) and returns
no outline. -/
theorem c8_no_json_error (raw : List Char)
    (h : hasJsonSpan (stripFences raw) = false) :
    parseStructure raw = Except.error GenErr.noJson := by
  have hm : jsonMatch (trimJs (stripFences raw)) = none := by
    rw [jsonMatch_trim]
    exact (jsonMatch_none_iff _).2 h
  rw [parseStructure, hm]
  rfl

theorem c8_witness :
    hasJsonSpan (stripFences ("the model failed to answer".data)) = false ∧
      parseStructure ("the model failed to answer".data) = Except.error GenErr.noJson :=
  ⟨rfl, c8_no_json_error _ rfl⟩

/-- Cleaning is invariant under wrapping in a Markdown `json` fence. -/
theorem stripFences_fenceWrap (j : List Char) :
    stripFences (fenceWrap j) = stripFences j := by
  rw [fenceWrap, stripE1, strip_close]

/-- The whole normalizer is invariant under wrapping in a Markdown fence. -/
theorem parseStructure_fenceWrap (j : List Char) :
    parseStructure (fenceWrap j) = parseStructure j := by
  rw [parseStructure, parseStructure, stripFences_fenceWrap]

/-- C9: normalizing a raw text obtained by wrapping a text `j` in a Markdown
code fence succeeds with the same outline the normalizer produces for `j`
unwrapped. -/
theorem c9_fence_equiv (j : List Char) (o : Json)
    (h : parseStructure j = Except.ok o) :
    parseStructure (fenceWrap j) = Except.ok o :=
  (parseStructure_fenceWrap j).trans h

theorem c9_witness :
    parseStructure rawObjOnly = Except.ok objEmptySlides ∧
      parseStructure (fenceWrap rawObjOnly) = Except.ok objEmptySlides :=
  ⟨rfl, c9_fence_equiv rawObjOnly objEmptySlides rfl⟩

/-- C5 counterexample: the code does NOT parse the first balanced JSON
object substring — the match runs greedily from the first left brace to the
LAST right brace.  For a valid JSON object followed by trailing prose
containing a right brace, the matched span includes the prose, parsing
fails, and the result differs from normalizing the object alone. -/
theorem c5_counterexample :
    jsonMatch (trimJs (stripFences rawTrailing)) = some rawTrailing ∧
      parseStructure rawTrailing = Except.error GenErr.badJson ∧
      parseStructure rawObjOnly = Except.ok objEmptySlides :=
  ⟨rfl, rfl, rfl⟩

/-- C5 (amended): the normalizer parses exactly the span from the first left
brace to the last right brace of the cleaned text — not the first balanced
JSON object substring; consequently appending trailing prose that contains
no braces (and no backticks, which fence stripping would touch) to a text
that normalizes successfully preserves the outline. -/
theorem c5_first_to_last_span_amended (j t : List Char) (o : Json)
    (hj : '\x60' ∉ j) (ht : '\x60' ∉ t) (hlb : lbraceC ∉ t) (hrb : rbraceC ∉ t)
    (h : parseStructure j = Except.ok o) :
    parseStructure (j ++ t) = Except.ok o := by
  have hsj : stripFences j = j := strip_no_tick j hj
  have hsjt : stripFences (j ++ t) = j ++ t := by
    apply strip_no_tick
    intro hx
    rcases List.mem_append.1 hx with hx1 | hx2
    · exact hj hx1
    · exact ht hx2
  calc parseStructure (j ++ t)
      = processMatch (jsonMatch (trimJs (j ++ t))) := by rw [parseStructure, hsjt]
    _ = processMatch (jsonMatch (j ++ t)) := by rw [jsonMatch_trim]
    _ = processMatch (jsonMatch j) := by rw [jsonMatch_append hlb hrb]
    _ = processMatch (jsonMatch (trimJs j)) := by rw [jsonMatch_trim]
    _ = parseStructure j := by rw [parseStructure, hsj]
    _ = Except.ok o := h

theorem c5_witness :
    parseStructure (rawObjOnly ++ " and some prose".data) = Except.ok objEmptySlides :=
  c5_first_to_last_span_amended rawObjOnly (" and some prose".data) objEmptySlides
    (by decide) (by decide) (by decide) (by decide) rfl

/-- C2: the layout preference order of the placement engine.  For a `title`
slide with more than one layout: the first layout whose name contains
`title` case-insensitively, else the first layout.  For a non-title slide
with more than one layout: the first layout whose name does not contain
`title`, else the second layout.  With no layouts at all: the hardcoded
default geometry (title box 0.5/0.5/9/1.2, content box 0.5/2/9/4.5). -/
theorem c2_layout_selection :
    (∀ (l0 l1 : LayoutRec) (rest : List LayoutRec),
      selectLayout true (l0 :: l1 :: rest)
        = ((l0 :: l1 :: rest).find? nameHasTitle).getD l0) ∧
    (∀ (l0 l1 : LayoutRec) (rest : List LayoutRec),
      selectLayout false (l0 :: l1 :: rest)
        = ((l0 :: l1 :: rest).find? (fun l => ! nameHasTitle l)).getD l1) ∧
    (∀ b, selectLayout b [] = defaultLayoutRec) ∧
    defaultLayoutRec.titleBox = some { x := 1/2, y := 1/2, w := 9, h := 6/5 } ∧
    defaultLayoutRec.contentBox = some { x := 1/2, y := 2, w := 9, h := 9/2 } := by
  refine ⟨?ha, ?hb, ?hc, rfl, rfl⟩
  case ha =>
    intro l0 l1 rest
    have hlen : 1 < (l0 :: l1 :: rest).length := by simp
    simp only [selectLayout, Bool.true_and, decide_eq_true_eq, if_pos hlen]
    cases hf : (l0 :: l1 :: rest).find? nameHasTitle with
    | some l => simp
    | none => simp
  case hb =>
    intro l0 l1 rest
    have hlen : 1 < (l0 :: l1 :: rest).length := by simp
    simp only [selectLayout, Bool.false_and, Bool.false_eq_true, if_false, if_pos hlen]
    cases hf : (l0 :: l1 :: rest).find? (fun l => ! nameHasTitle l) with
    | some l => simp
    | none => simp
  case hc =>
    intro b
    cases b <;> rfl

/-- C3 counterexample: the backend template analyzer does NOT absorb a
top-level archive failure — its `catch` rethrows a
`Failed to analyze template: ...` error to the caller (where `server.js`
fails the request), contradicting the never-propagates claim. -/
theorem c3_counterexample :
    analyzeTemplate (ZipOpen.failed ("bad zip".data))
        (fun _ => { colors := [], fonts := [], layouts := [], images := [] })
      = Except.error ("Failed to analyze template: bad zip".data) := rfl

/-- C3 (amended): the frontend template model builder
(`extractTemplateData`) returns the fully-default template model whenever
the archive open fails, and being a total function it never propagates an
error; the backend variant (`analyzeTemplate`) instead wraps and rethrows
the failure, so on that path template analysis does block generation. -/
theorem c3_default_on_failure_amended :
    (∀ msg, extractTemplateData (ZipOpen.failed msg) = defaultTemplateData) ∧
    (∀ msg extract, analyzeTemplate (ZipOpen.failed msg) extract
      = Except.error ("Failed to analyze template: ".data ++ msg)) :=
  ⟨fun _ => rfl, fun _ _ => rfl⟩

/-- C7: output file-base derivation: strip characters outside the
word/space/hyphen classes, trim, collapse whitespace runs to single
underscores, truncate to 50 characters, and substitute `Presentation` for
an empty result.  In particular `"Q3 Report: Growth & Risk!"` derives
`"Q3_Report_Growth_Risk"`, and empty or all-punctuation titles derive
`"Presentation"`; the derived base is never empty and never longer than 50
characters. -/
theorem c7_filename_derivation :
    deriveFileBase ("Q3 Report: Growth & Risk!".data) = "Q3_Report_Growth_Risk".data ∧
    deriveFileBase [] = "Presentation".data ∧
    deriveFileBase ("?!*".data) = "Presentation".data ∧
    (∀ title, deriveFileBase title ≠ [] ∧ (deriveFileBase title).length ≤ 50) := by
  refine ⟨rfl, rfl, rfl, ?huniv⟩
  intro title
  by_cases he : (cleanTitle title).isEmpty
  · have hp : deriveFileBase title = "Presentation".data := by
      simp [deriveFileBase, he]
    rw [hp]
    exact ⟨by decide, by decide⟩
  · have hp : deriveFileBase title = cleanTitle title := by
      simp [deriveFileBase, he]
    rw [hp]
    constructor
    · intro hx
      rw [hx] at he
      simp at he
    · rw [cleanTitle]
      exact List.length_take_le 50 _

/-! ## Claim theorems (part 2): the first-slide force and the empty outline -/

theorem lookupJ_upsertF (fs : List (List Char × Json)) (k : List Char) (v : Json) :
    lookupJ (upsertF fs k v) k = some v := by
  induction fs with
  | nil => simp [upsertF, lookupJ]
  | cons kv rest ih =>
    obtain ⟨k1, v1⟩ := kv
    by_cases hk : k1 = k
    · simp [upsertF, hk, lookupJ]
    · simp [upsertF, hk, lookupJ, ih]

theorem getFieldJ_some_obj {w : Json} {k : List Char} {u : Json}
    (h : getFieldJ w k = some u) : ∃ fs, w = Json.obj fs := by
  cases w with
  | obj fs => exact ⟨fs, rfl⟩
  | null => simp [getFieldJ] at h
  | bool b => simp [getFieldJ] at h
  | num n => simp [getFieldJ] at h
  | str s2 => simp [getFieldJ] at h
  | arr xs => simp [getFieldJ] at h

/-- C4 counterexample: the raw output `rawNullSlide` is accepted (parse and
validation succeed, one slide present) but its first slide is `null`, which
is falsy, so the force-to-`title` step skips it and the returned outline's
first slide does NOT have type `title`. -/
theorem c4_counterexample :
    parseStructure rawNullSlide = Except.ok objNullSlide ∧
      firstSlideTypeTitle objNullSlide = false :=
  ⟨rfl, rfl⟩

/-- C4 (amended): whenever the normalizer accepts a raw output and the first
element of its `slides` array is truthy (in particular an object), that
element's `type` is forced to `title`; a falsy first element (such as
`null`) is left untouched. -/
theorem c4_first_slide_title_amended (raw : List Char) (v s : Json) (rest : List Json)
    (h : parseStructure raw = Except.ok v)
    (hs : getFieldJ v slidesKey = some (Json.arr (s :: rest)))
    (ht : truthy s = true) :
    getFieldJ s typeKey = some (Json.str titleKey) := by
  rw [parseStructure] at h
  cases hm : jsonMatch (trimJs (stripFences raw)) with
  | none =>
    rw [hm] at h
    exact absurd h (by simp [processMatch])
  | some m =>
    rw [hm] at h
    cases hp : jsonParse m with
    | none =>
      simp only [processMatch, hp] at h
      exact absurd h (by simp)
    | some w =>
      simp only [processMatch, hp] at h
      split at h
      · exact absurd h (by simp)
      · cases hws : getFieldJ w slidesKey with
        | none =>
          simp only [forceFirstSlideTitle, hws] at h
          injection h with h
          subst h
          rw [hws] at hs
          exact absurd hs (by simp)
        | some wv =>
          cases wv with
          | arr xs =>
            cases xs with
            | nil =>
              simp only [forceFirstSlideTitle, hws] at h
              injection h with h
              subst h
              rw [hws] at hs
              simp at hs
            | cons s0 r0 =>
              simp only [forceFirstSlideTitle, hws] at h
              by_cases ht0 : truthy s0
              · rw [if_pos ht0] at h
                cases s0 with
                | obj fs =>
                  injection h with h
                  subst h
                  obtain ⟨fs1, rfl⟩ := getFieldJ_some_obj hws
                  rw [setFieldJ, getFieldJ, lookupJ_upsertF] at hs
                  injection hs with hs
                  injection hs with hs
                  injection hs with hs1 hs2
                  rw [← hs1, getFieldJ, lookupJ_upsertF]
                | null => exact absurd h (by simp)
                | bool b => exact absurd h (by simp)
                | num n => exact absurd h (by simp)
                | str t => exact absurd h (by simp)
                | arr ys => exact absurd h (by simp)
              · rw [if_neg ht0] at h
                injection h with h
                subst h
                rw [hws] at hs
                injection hs with hs
                injection hs with hs
                injection hs with hs1 hs2
                rw [hs1] at ht0
                exact absurd ht ht0
          | null =>
            simp only [forceFirstSlideTitle, hws] at h
            injection h with h
            subst h
            rw [hws] at hs
            exact absurd hs (by simp)
          | bool b =>
            simp only [forceFirstSlideTitle, hws] at h
            injection h with h
            subst h
            rw [hws] at hs
            exact absurd hs (by simp)
          | num n =>
            simp only [forceFirstSlideTitle, hws] at h
            injection h with h
            subst h
            rw [hws] at hs
            exact absurd hs (by simp)
          | str t =>
            simp only [forceFirstSlideTitle, hws] at h
            injection h with h
            subst h
            rw [hws] at hs
            exact absurd hs (by simp)
          | obj fs =>
            simp only [forceFirstSlideTitle, hws] at h
            injection h with h
            subst h
            rw [hws] at hs
            exact absurd hs (by simp)

theorem c4_witness :
    parseStructure ("\x7b\"title\":\"T\",\"slides\":[\x7b\"type\":\"content\"\x7d]\x7d".data)
        = Except.ok (Json.obj [("title".data, Json.str ("T".data)),
            ("slides".data, Json.arr [Json.obj [("type".data, Json.str titleKey)]])]) ∧
      getFieldJ (Json.obj [("type".data, Json.str titleKey)]) typeKey
        = some (Json.str titleKey) :=
  ⟨rfl, c4_first_slide_title_amended
    ("\x7b\"title\":\"T\",\"slides\":[\x7b\"type\":\"content\"\x7d]\x7d".data)
    (Json.obj [("title".data, Json.str ("T".data)),
      ("slides".data, Json.arr [Json.obj [("type".data, Json.str titleKey)]])])
    (Json.obj [("type".data, Json.str titleKey)]) [] rfl rfl rfl⟩


/-! ## Claim theorems (part 3): empty outlines and the canvas clamp -/

/-- C10: an accepted outline whose `slides` array is empty passes
normalization unchanged (the force-first-slide step is vacuously skipped),
and deck creation succeeds, emitting a deck with no slides; no error is
surfaced for the empty-slide-list case. -/
theorem c10_empty_slides_ok :
    parseStructure rawObjOnly = Except.ok objEmptySlides ∧
    (∀ (v : Json) (td : Option TemplateData) (t : List Char),
      getFieldJ v slidesKey = some (Json.arr []) →
      getFieldJ v titleKey = some (Json.str t) →
      createPresentationWithTemplate v td
        = Except.ok { slides := [], fileName := deriveFileName t }) := by
  refine ⟨rfl, ?_⟩
  intro v td t hs ht
  simp only [createPresentationWithTemplate, hs, ht]
  rfl

theorem c10_witness :
    createPresentationWithTemplate objEmptySlides none
      = Except.ok { slides := [], fileName := deriveFileName ("T".data) } :=
  c10_empty_slides_ok.2 objEmptySlides none ("T".data) rfl rfl

theorem goodBox_clamp (x y cx cy : Nat) : goodBox (clampBox x y cx cy) :=
  ⟨le_max_left _ _, le_max_left _ _, min_le_left _ _, min_le_left _ _⟩

theorem layoutStep_good (acc : Option BoxQ × Option BoxQ) (shape : List Char)
    (h1 : ∀ b, acc.1 = some b → goodBox b) (h2 : ∀ b, acc.2 = some b → goodBox b) :
    (∀ b, (layoutStep acc shape).1 = some b → goodBox b) ∧
    (∀ b, (layoutStep acc shape).2 = some b → goodBox b) := by
  by_cases hph : phPresent shape = true
  · cases hoe : scanOffExt shape with
    | none =>
      simp only [layoutStep, hph, hoe, if_true]
      exact ⟨h1, h2⟩
    | some q =>
      obtain ⟨x, y, cx, cy⟩ := q
      simp only [layoutStep, hph, hoe, if_true]
      rw [if_neg (by decide)]
      by_cases hc2 : ("content".data = "body".data ∨ "content".data = "obj".data ∨
          acc.1 = none)
      · rw [if_pos hc2]
        refine ⟨h1, fun b hb => ?_⟩
        have hb2 : some (clampBox x y cx cy) = some b := hb
        injection hb2 with hb2
        rw [← hb2]
        exact goodBox_clamp x y cx cy
      · rw [if_neg hc2]
        exact ⟨h1, h2⟩
  · have hstep : layoutStep acc shape = acc := by
      unfold layoutStep
      exact if_neg hph
    rw [hstep]
    exact ⟨h1, h2⟩

theorem foldl_layoutStep_good : ∀ (shapes : List (List Char)) (acc : Option BoxQ × Option BoxQ),
    (∀ b, acc.1 = some b → goodBox b) → (∀ b, acc.2 = some b → goodBox b) →
    (∀ b, (shapes.foldl layoutStep acc).1 = some b → goodBox b) ∧
    (∀ b, (shapes.foldl layoutStep acc).2 = some b → goodBox b)
  | [], _, h1, h2 => ⟨h1, h2⟩
  | s :: rest, acc, h1, h2 =>
    foldl_layoutStep_good rest (layoutStep acc s)
      (layoutStep_good acc s h1 h2).1 (layoutStep_good acc s h1 h2).2

/-- C1 counterexample: a master XML whose title placeholder is 100 inches
wide (cx = 91440000 EMU) yields a master-layout title box of width
100 > 10: `extractMasterLayout` divides by 914400 but never clamps. -/
theorem c1_counterexample :
    extractMasterLayout cexMasterXml
      = some
          { name := "Master Layout".data,
            titleBox := some
              { x := emuToInch 0, y := emuToInch 0,
                w := emuToInch 91440000, h := emuToInch 914400 },
            contentBox := some fallbackContentBox } ∧
    ¬ emuToInch 91440000 ≤ 10 := by
  refine ⟨rfl, ?_⟩
  norm_num [emuToInch]

/-- C1 (amended): every box `extractLayoutPositions` recovers from layout
XML — and each of its fallbacks — satisfies the canvas-clamp invariant
(x, y ≥ 0, width ≤ 10, height ≤ 7.5); boxes recovered by
`extractMasterLayout` from master XML are NOT clamped (see the
counterexample). -/
theorem c1_canvas_clamp_amended (layoutXml : List Char) (rec : LayoutRec)
    (h : extractLayoutPositions layoutXml = some rec) :
    (∀ b, rec.titleBox = some b → goodBox b) ∧
    (∀ b, rec.contentBox = some b → goodBox b) := by
  rw [extractLayoutPositions] at h
  injection h with h
  subst h
  have hfold := foldl_layoutStep_good (collectShapes layoutXml.length layoutXml)
    (none, none) (fun b hb => Option.noConfusion hb) (fun b hb => Option.noConfusion hb)
  constructor
  · intro b hb
    have hb2 : some (((collectShapes layoutXml.length layoutXml).foldl layoutStep
        (none, none)).1.getD fallbackTitleBox) = some b := hb
    injection hb2 with hb2
    rw [← hb2]
    cases hX : ((collectShapes layoutXml.length layoutXml).foldl layoutStep (none, none)).1 with
    | none =>
      exact ⟨by norm_num [fallbackTitleBox], by norm_num [fallbackTitleBox],
        by norm_num [fallbackTitleBox], by norm_num [fallbackTitleBox]⟩
    | some c =>
      exact hfold.1 c hX
  · intro b hb
    have hb2 : some (((collectShapes layoutXml.length layoutXml).foldl layoutStep
        (none, none)).2.getD fallbackContentBox) = some b := hb
    injection hb2 with hb2
    rw [← hb2]
    cases hX : ((collectShapes layoutXml.length layoutXml).foldl layoutStep (none, none)).2 with
    | none =>
      exact ⟨by norm_num [fallbackContentBox], by norm_num [fallbackContentBox],
        by norm_num [fallbackContentBox], by norm_num [fallbackContentBox]⟩
    | some c =>
      exact hfold.2 c hX

theorem c1_witness :
    extractLayoutPositions []
      = some
          { name := "Content Layout".data,
            titleBox := some fallbackTitleBox,
            contentBox := some fallbackContentBox } ∧
    goodBox fallbackTitleBox ∧ goodBox fallbackContentBox :=
  ⟨rfl,
    (c1_canvas_clamp_amended []
        { name := "Content Layout".data,
          titleBox := some fallbackTitleBox,
          contentBox := some fallbackContentBox } rfl).1
      fallbackTitleBox rfl,
    (c1_canvas_clamp_amended []
        { name := "Content Layout".data,
          titleBox := some fallbackTitleBox,
          contentBox := some fallbackContentBox } rfl).2
      fallbackContentBox rfl⟩


/-! ## Claim theorems (part 4): theme color extraction -/

theorem lowerN_hex {c : Char} (h : isHexChar c = true) :
    (48 ≤ lowerN c ∧ lowerN c ≤ 57) ∨ (97 ≤ lowerN c ∧ lowerN c ≤ 102) := by
  simp only [isHexChar, Bool.or_eq_true, Bool.and_eq_true, decide_eq_true_eq] at h
  simp only [lowerN]
  by_cases h65 : 65 ≤ c.toNat ∧ c.toNat ≤ 90 <;> simp [h65] <;> omega

theorem hex_ne_lt {c : Char} (h : isHexChar c = true) : charEqCI '<' c = false := by
  have hv : charEqCI '<' c = (60 == lowerN c) := rfl
  rw [hv, beq_eq_false_iff_ne]
  have := lowerN_hex h
  omega

theorem hex_bne_lt {c : Char} (h : isHexChar c = true) : ('<' == c) = false := by
  rw [beq_eq_false_iff_ne]
  intro he
  rw [← he] at h
  exact absurd h (by decide)

theorem startsCI_head_neg (p : Char) (ps : List Char) (c : Char) (cs : List Char)
    (h : charEqCI p c = false) : startsCI (p :: ps) (c :: cs) = false := by
  simp [startsCI, h]

theorem startsWithL_head_neg (p : Char) (ps : List Char) (c : Char) (cs : List Char)
    (h : (p == c) = false) : startsWithL (p :: ps) (c :: cs) = false := by
  simp [startsWithL, h]

set_option maxHeartbeats 2000000 in
theorem scanAfterCI_skip_block {t u : SchemeTag} (hne : t ≠ u) (a b c d e f : Char)
    (x1 : isHexChar a = true) (x2 : isHexChar b = true) (x3 : isHexChar c = true)
    (x4 : isHexChar d = true) (x5 : isHexChar e = true) (x6 : isHexChar f = true)
    (X : List Char) :
    scanAfterCI (tagLitOf t) (blockOf u [a, b, c, d, e, f] ++ X)
      = scanAfterCI (tagLitOf t) X := by
  cases t <;> cases u <;>
    first
      | exact absurd rfl hne
      | simp [blockOf, tagLitOf, scanAfterCI, startsCI, charEqCI, lowerN,
          startsCI_head_neg _ _ _ _ (hex_ne_lt x1), startsCI_head_neg _ _ _ _ (hex_ne_lt x2),
          startsCI_head_neg _ _ _ _ (hex_ne_lt x3), startsCI_head_neg _ _ _ _ (hex_ne_lt x4),
          startsCI_head_neg _ _ _ _ (hex_ne_lt x5), startsCI_head_neg _ _ _ _ (hex_ne_lt x6)]

set_option maxHeartbeats 2000000 in
theorem findTagColor_hit (t : SchemeTag) (a b c d e f : Char)
    (x1 : isHexChar a = true) (x2 : isHexChar b = true) (x3 : isHexChar c = true)
    (x4 : isHexChar d = true) (x5 : isHexChar e = true) (x6 : isHexChar f = true)
    (X : List Char) :
    findTagColor (tagLitOf t) (blockOf t [a, b, c, d, e, f] ++ X) = some [a, b, c, d, e, f] := by
  cases t <;>
    simp [findTagColor, blockOf, tagLitOf, scanAfterCI, startsCI, charEqCI, lowerN,
      findValHex6, grabHex6, x1, x2, x3, x4, x5, x6]

set_option maxHeartbeats 2000000 in
theorem tbl_skip_block (u : SchemeTag) (a b c d e f : Char)
    (x1 : isHexChar a = true) (x2 : isHexChar b = true) (x3 : isHexChar c = true)
    (x4 : isHexChar d = true) (x5 : isHexChar e = true) (x6 : isHexChar f = true)
    (X : List Char) :
    takeBeforeLit clrClose (blockOf u [a, b, c, d, e, f] ++ X)
      = (takeBeforeLit clrClose X).map (fun r => blockOf u [a, b, c, d, e, f] ++ r) := by
  cases u <;> (cases htb : takeBeforeLit clrClose X <;>
    simp only [clrClose] at htb <;>
    simp [blockOf, clrClose, takeBeforeLit, startsWithL, htb,
      startsWithL_head_neg _ _ _ _ (hex_bne_lt x1), startsWithL_head_neg _ _ _ _ (hex_bne_lt x2),
      startsWithL_head_neg _ _ _ _ (hex_bne_lt x3), startsWithL_head_neg _ _ _ _ (hex_bne_lt x4),
      startsWithL_head_neg _ _ _ _ (hex_bne_lt x5), startsWithL_head_neg _ _ _ _ (hex_bne_lt x6)])

theorem isHex6_elim {hx : List Char} (h : isHex6 hx = true) :
    ∃ a b c d e f, hx = [a, b, c, d, e, f] ∧ isHexChar a = true ∧ isHexChar b = true ∧
      isHexChar c = true ∧ isHexChar d = true ∧ isHexChar e = true ∧ isHexChar f = true := by
  match hx with
  | [a, b, c, d, e, f] =>
    simp only [isHex6, Bool.and_eq_true] at h
    exact ⟨a, b, c, d, e, f, rfl, h.1.1.1.1.1, h.1.1.1.1.2, h.1.1.1.2, h.1.1.2, h.1.2, h.2⟩
  | [] => simp [isHex6] at h
  | [_] => simp [isHex6] at h
  | [_, _] => simp [isHex6] at h
  | [_, _, _] => simp [isHex6] at h
  | [_, _, _, _] => simp [isHex6] at h
  | [_, _, _, _, _] => simp [isHex6] at h
  | _ :: _ :: _ :: _ :: _ :: _ :: _ :: _ => simp [isHex6] at h

theorem findTagColor_nil (t : SchemeTag) : findTagColor (tagLitOf t) [] = none := by
  cases t <;> rfl

theorem tbl_base : takeBeforeLit clrClose clrClose = some [] := by decide

theorem tbl_blocks (items : List (SchemeTag × List Char))
    (hhex : ∀ it ∈ items, isHex6 it.2 = true) :
    takeBeforeLit clrClose (blocksOf items ++ clrClose) = some (blocksOf items) := by
  induction items with
  | nil => simpa [blocksOf] using tbl_base
  | cons it rest ih =>
    obtain ⟨u, hx⟩ := it
    obtain ⟨a, b, c, d, e, f, rfl, x1, x2, x3, x4, x5, x6⟩ :=
      isHex6_elim (hhex (u, hx) (by simp))
    have hrest : ∀ it ∈ rest, isHex6 it.2 = true := fun it hit => hhex it (by simp [hit])
    show takeBeforeLit clrClose ((blockOf u _ ++ blocksOf rest) ++ clrClose) = _
    rw [List.append_assoc, tbl_skip_block u a b c d e f x1 x2 x3 x4 x5 x6, ih hrest]
    simp [blocksOf]

theorem schemeContent_wrap (body : List Char)
    (hb : takeBeforeLit clrClose (body ++ clrClose) = some body) :
    schemeContent (schemeWrap body) = some body := by
  have h0 : schemeContent (schemeWrap body) = takeBeforeLit clrClose (body ++ clrClose) := rfl
  rw [h0, hb]

theorem findTag_blocks (t : SchemeTag) (items : List (SchemeTag × List Char))
    (hhex : ∀ it ∈ items, isHex6 it.2 = true) :
    findTagColor (tagLitOf t) (blocksOf items) = lookFor t items := by
  induction items with
  | nil => simpa [blocksOf, lookFor] using findTagColor_nil t
  | cons it rest ih =>
    obtain ⟨u, hx⟩ := it
    obtain ⟨a, b, c, d, e, f, rfl, x1, x2, x3, x4, x5, x6⟩ :=
      isHex6_elim (hhex (u, hx) (by simp))
    have hrest : ∀ it ∈ rest, isHex6 it.2 = true := fun it hit => hhex it (by simp [hit])
    by_cases hut : u = t
    · subst hut
      show findTagColor (tagLitOf u) (blockOf u _ ++ blocksOf rest) = _
      rw [findTagColor_hit u a b c d e f x1 x2 x3 x4 x5 x6]
      simp [lookFor]
    · show findTagColor (tagLitOf t) (blockOf u _ ++ blocksOf rest) = _
      rw [findTagColor, scanAfterCI_skip_block (fun he => hut he.symm) a b c d e f
        x1 x2 x3 x4 x5 x6, ← findTagColor, ih hrest]
      simp [lookFor, hut]

theorem extract_blocks (items : List (SchemeTag × List Char))
    (hhex : ∀ it ∈ items, isHex6 it.2 = true) :
    extractColorsFromTheme (schemeWrap (blocksOf items))
      = { primary := ((lookFor .a1 items).map hexColorToken).getD defaultColors.primary,
          secondary := ((lookFor .a2 items).map hexColorToken).getD defaultColors.secondary,
          accent := defaultColors.accent,
          text := ((lookFor .dk1 items).map hexColorToken).getD defaultColors.text,
          background := ((lookFor .lt1 items).map hexColorToken).getD defaultColors.background } := by
  rw [extractColorsFromTheme, schemeContent_wrap _ (tbl_blocks items hhex)]
  have hd : findTagColor ("<a:dk1>".data) (blocksOf items) = lookFor .dk1 items :=
    findTag_blocks .dk1 items hhex
  have hl : findTagColor ("<a:lt1>".data) (blocksOf items) = lookFor .lt1 items :=
    findTag_blocks .lt1 items hhex
  have hp : findTagColor ("<a:accent1>".data) (blocksOf items) = lookFor .a1 items :=
    findTag_blocks .a1 items hhex
  have hq : findTagColor ("<a:accent2>".data) (blocksOf items) = lookFor .a2 items :=
    findTag_blocks .a2 items hhex
  simp only [hd, hl, hp, hq]
  cases lookFor SchemeTag.dk1 items <;> cases lookFor SchemeTag.lt1 items <;>
    cases lookFor SchemeTag.a1 items <;> cases lookFor SchemeTag.a2 items <;> rfl

theorem schemeItems_hex (order : List SchemeTag) (d l p q : List Char)
    (hd : isHex6 d = true) (hl : isHex6 l = true) (hp : isHex6 p = true)
    (hq : isHex6 q = true) :
    ∀ it ∈ schemeItems order d l p q, isHex6 it.2 = true := by
  intro it hit
  simp only [schemeItems, List.mem_map] at hit
  obtain ⟨t, _, rfl⟩ := hit
  cases t <;> simpa [tokOf]

theorem memOptBlock {b : Bool} {t : SchemeTag} {x : List Char}
    {it : SchemeTag × List Char} (hx : isHex6 x = true)
    (h : it ∈ (if b then [(t, x)] else [])) : isHex6 it.2 = true := by
  cases b
  · simp at h
  · simp at h
    subst h
    simpa using hx

theorem schemeItemsOpt_hex (bd bl bp bq : Bool) (d l p q : List Char)
    (hd : isHex6 d = true) (hl : isHex6 l = true) (hp : isHex6 p = true)
    (hq : isHex6 q = true) :
    ∀ it ∈ schemeItemsOpt bd bl bp bq d l p q, isHex6 it.2 = true := by
  intro it hit
  rcases List.mem_append.1 hit with h | h
  · rcases List.mem_append.1 h with h | h
    · rcases List.mem_append.1 h with h | h
      · exact memOptBlock hd h
      · exact memOptBlock hl h
    · exact memOptBlock hp h
  · exact memOptBlock hq h

set_option maxHeartbeats 2000000 in
/-- C6: for every theme XML whose color scheme holds valid six-hex-digit
srgbClr val tokens for dk1, lt1, accent1 and accent2, the extracted
ColorScheme maps them — lower-cased and hash-prefixed — to text,
background, primary and secondary respectively, in every one of the 24 tag
orders; with any subset of the four tags present (canonical order), each
absent tag leaves its field at the documented default. -/
theorem c6_theme_colors :
    (∀ d l p q : List Char, isHex6 d = true → isHex6 l = true → isHex6 p = true →
      isHex6 q = true → ∀ order ∈ allOrders,
      extractColorsFromTheme (schemeXml order d l p q)
        = { primary := hexColorToken p, secondary := hexColorToken q,
            accent := defaultColors.accent, text := hexColorToken d,
            background := hexColorToken l }) ∧
    (∀ d l p q : List Char, ∀ bd bl bp bq : Bool, isHex6 d = true → isHex6 l = true →
      isHex6 p = true → isHex6 q = true →
      extractColorsFromTheme (schemeXmlOpt bd bl bp bq d l p q)
        = { primary := if bp then hexColorToken p else defaultColors.primary,
            secondary := if bq then hexColorToken q else defaultColors.secondary,
            accent := defaultColors.accent,
            text := if bd then hexColorToken d else defaultColors.text,
            background := if bl then hexColorToken l else defaultColors.background }) := by
  constructor
  · intro d l p q hd hl hp hq order hord
    rw [schemeXml, extract_blocks _ (schemeItems_hex order d l p q hd hl hp hq)]
    fin_cases hord <;> simp [schemeItems, lookFor, tokOf]
  · intro d l p q bd bl bp bq hd hl hp hq
    rw [schemeXmlOpt, extract_blocks _ (schemeItemsOpt_hex bd bl bp bq d l p q hd hl hp hq)]
    cases bd <;> cases bl <;> cases bp <;> cases bq <;>
      simp [schemeItemsOpt, lookFor]

theorem c6_witness :
    extractColorsFromTheme (schemeXml [.a2, .dk1, .lt1, .a1] ("1A2B3C".data)
        ("FFFFFF".data) ("00AaBb".data) ("123456".data))
      = { primary := hexColorToken ("00AaBb".data),
          secondary := hexColorToken ("123456".data),
          accent := defaultColors.accent, text := hexColorToken ("1A2B3C".data),
          background := hexColorToken ("FFFFFF".data) } :=
  c6_theme_colors.1 _ _ _ _ (by decide) (by decide) (by decide) (by decide)
    [.a2, .dk1, .lt1, .a1] (by decide)
